import Mathlib

/-!
Shallow embedding of the reserved-IP orchestration engine of this repository
(src/modules/doapi.py and src/reserved_ip_api.py).

Modelling conventions:
* Python strings are lists of characters (`Str`); `token[:10]` is `List.take 10`,
  `'needle' in s` is `listContainsSub`.
* `time.time()` is a natural-number clock threaded through an explicit state `S`
  holding the module-level `_cache`, the current time and the log of
  `asyncio.sleep` durations performed so far.
* Each HTTP attempt of a request loop consumes one element of a list of
  provider responses; a loop with `retries = n` runs on a list of length `n`,
  and the source's `attempt < retries - 1` test corresponds to the tail of the
  response list being nonempty.
* Python values that can be `True`/`False`/error dicts (such as the result of
  `delete_reserved_ip`) are inductives; `deleteTruthy` captures Python
  truthiness of those values as used by `if not delete_success`.
* Exception branches that are unreachable in the embedding (the wrappers catch
  exceptions from functions which already catch all their own exceptions) are
  not modelled.
-/

namespace DoApi

abbrev Str := List Char

/-- Boolean test: the first list is an initial segment of the second
(used to implement Python's substring test). -/
def listStartsWith [BEq α] : List α → List α → Bool
  | [], _ => true
  | _ :: _, [] => false
  | a :: as, b :: bs => a == b && listStartsWith as bs

/-- Boolean test: the first list occurs contiguously inside the second;
Python's `pat in s` for strings. -/
def listContainsSub [BEq α] (pat l : List α) : Bool :=
  match l with
  | [] => pat == []
  | _ :: rest => listStartsWith pat l || listContainsSub pat rest

/-- Python `pat in s` (note the argument order: haystack first). -/
def strContainsSub (s pat : Str) : Bool := listContainsSub pat s

/-- Python `s.lower()`. -/
def strToLower (s : Str) : Str := s.map Char.toLower

/-- Python `s.strip()`. -/
def strTrim (s : Str) : Str :=
  ((((s.dropWhile Char.isWhitespace).reverse).dropWhile Char.isWhitespace)).reverse

def sReservedIps : Str := "reserved_ips".toList
def sQuotaNeedle : Str := "exceed your Reserved IP limit".toList
def sPendingNeedle : Str := "pending event".toList
def kQuota : Str := "quota_exceeded".toList
def kUnproc : Str := "unprocessable_entity".toList
def kNotFound : Str := "not_found".toList
def kPendingEvent : Str := "pending_event".toList
def sUnknown422 : Str := "Unknown 422 error".toList
def sSuccess : Str := "success".toList
def sFailed : Str := "failed".toList
def sDoToken : Str := "do_token".toList

/-- One element of a provider reserved-IP listing: `{'ip': ..., 'droplet': {'id': ...}}`;
`dropletId = none` models a missing/None `droplet` field. -/
structure ReservedIp where
  ip : Str
  dropletId : Option Nat
deriving DecidableEq, Repr

/-- The body of a successful create response: `result.get('reserved_ip', {})`. -/
structure RipInfo where
  ip : Str
deriving DecidableEq, Repr

/-- The module-level `_cache`: key to (payload, fetch timestamp), a Python dict
modelled as an association list with unique keys. -/
abbrev Cache := List (Str × (List ReservedIp × Nat))

/-- Source `_cache_timeout = 30`. -/
def cacheTimeoutSec : Nat := 30

/-- Source `_get_cache_key`: the first 10 characters of the token, an
underscore, then the endpoint name. -/
def getCacheKey (token endpoint : Str) : Str :=
  token.take 10 ++ '_' :: endpoint

/-- Removal of a key, as done by `del _cache[cache_key]`. -/
def cacheErase (c : Cache) (k : Str) : Cache :=
  c.filter (fun e => !(e.1 == k))

/-- Source `_get_from_cache`: a fresh entry (age < 30s) is returned and left in place;
an expired entry is deleted; a missing key is a miss. Returns the value (if
any) together with the cache after the lazy eviction. -/
def getFromCache (c : Cache) (k : Str) (now : Nat) : Option (List ReservedIp) × Cache :=
  match List.lookup k c with
  | some (d, ts) => if now - ts < cacheTimeoutSec then (some d, c) else (none, cacheErase c k)
  | none => (none, c)

/-- Source `_set_cache`: assignment into the cache dict with the current time. -/
def setCache (c : Cache) (k : Str) (v : List ReservedIp) (now : Nat) : Cache :=
  (k, (v, now)) :: cacheErase c k

/-- The ambient state: cache contents, current clock, and the log of every
`asyncio.sleep` duration performed so far (in seconds, in order). -/
structure S where
  cache : Cache
  now : Nat
  sleeps : List Nat
deriving DecidableEq, Repr

/-- Python `await asyncio.sleep(d)`: advances the clock and logs the delay. -/
def sleep (d : Nat) (s : S) : S := ⟨s.cache, s.now + d, s.sleeps ++ [d]⟩

/-- One HTTP attempt of the reserved-IP listing request: either status 200 with
a parsed `reserved_ips` array, or any other status / transport exception. -/
inductive ListAttempt where
  | ok (ips : List ReservedIp)
  | failure
deriving DecidableEq, Repr

/-- The listing the HTTP loop of `get_reserved_ips` would produce: the body of
the first 200 response, or `[]` when every attempt fails. -/
def httpFirstOk : List ListAttempt → List ReservedIp
  | [] => []
  | ListAttempt.ok l :: _ => l
  | ListAttempt.failure :: rest => httpFirstOk rest

/-- The `for attempt in range(retries)` loop of `get_reserved_ips`: a 200
response returns its listing (writing the cache when `use_cache`); any other
outcome sleeps 2s and retries unless this was the final attempt; exhaustion
returns `[]`. Also returns the number of HTTP attempts made. -/
def getReservedIpsLoop (useCache : Bool) (key : Str) :
    List ListAttempt → S → List ReservedIp × Nat × S
  | [], s => ([], 0, s)
  | ListAttempt.ok ips :: _, s =>
      (ips, 1, ⟨if useCache then setCache s.cache key ips s.now else s.cache, s.now, s.sleeps⟩)
  | ListAttempt.failure :: rest, s =>
      match rest with
      | [] => ([], 1, s)
      | r :: rs =>
          let q := getReservedIpsLoop useCache key (r :: rs) (sleep 2 s)
          (q.1, q.2.1 + 1, q.2.2)

/-- Source `get_reserved_ips(token, retries=3, use_cache=True)`: when `use_cache`, a
fresh cached listing is returned with no HTTP attempt; otherwise (after lazy
eviction of an expired entry) the HTTP retry loop runs. Returns the listing,
the number of HTTP attempts made (0 on a cache hit) and the new state. -/
def get_reserved_ips (token : Str) (useCache : Bool) (responses : List ListAttempt) (s : S) :
    List ReservedIp × Nat × S :=
  let key := getCacheKey token sReservedIps
  if useCache then
    let gc := getFromCache s.cache key s.now
    match gc.1 with
    | some d => (d, 0, ⟨gc.2, s.now, s.sleeps⟩)
    | none => getReservedIpsLoop useCache key responses ⟨gc.2, s.now, s.sleeps⟩
  else getReservedIpsLoop useCache key responses s

/-- The scan of `find_machine_reserved_ip`: first listing entry whose
`droplet['id']` equals the target droplet id, returning its `ip`. -/
def findIpForDroplet (ips : List ReservedIp) (dropletId : Nat) : Option Str :=
  (ips.find? (fun r => r.dropletId == some dropletId)).map (fun r => r.ip)

/-- Python `any(rip.get('ip') == reserved_ip for rip in reserved_ips)`. -/
def ipPresent (ips : List ReservedIp) (ip : Str) : Bool :=
  ips.any (fun r => r.ip == ip)

/-- Source `find_machine_reserved_ip(token, droplet_id)`: fetches the listing through
`doapi.get_reserved_ips(token)` — with the DEFAULT `use_cache=True` — and scans
it. Also reports the number of HTTP attempts the fetch made. -/
def find_machine_reserved_ip (token : Str) (dropletId : Nat)
    (responses : List ListAttempt) (s : S) : Option Str × Nat × S :=
  let g := get_reserved_ips token true responses s
  (findIpForDroplet g.1 dropletId, g.2.1, g.2.2)

/-- Number of iterations of a `while wait_time < max_wait_time` loop that adds
10 to `wait_time` each round. -/
def numPolls (maxWait : Nat) : Nat := (maxWait + 9) / 10

/-- The polling loop of `wait_for_reserved_ip_deletion`, one list element per
poll iteration (each element is the response stream of that poll's
`get_reserved_ips(token)` call, again with the default `use_cache=True`).
Returns (confirmed?, number of polls performed, state). -/
def waitDeletionGo (token ip : Str) : List (List ListAttempt) → S → Bool × Nat × S
  | [], s => (false, 0, s)
  | p :: rest, s =>
      let g := get_reserved_ips token true p s
      if ipPresent g.1 ip then
        let w := waitDeletionGo token ip rest (sleep 10 g.2.2)
        (w.1, w.2.1 + 1, w.2.2)
      else (true, 1, g.2.2)

/-- Source `wait_for_reserved_ip_deletion(token, reserved_ip, max_wait_time=120)`:
polls every 10 seconds while `wait_time < max_wait_time`; `True` once the IP no
longer appears, `False` on budget exhaustion. -/
def wait_for_reserved_ip_deletion (token ip : Str) (polls : Nat → List ListAttempt)
    (maxWait : Nat) (s : S) : Bool × Nat × S :=
  waitDeletionGo token ip ((List.range (numPolls maxWait)).map polls) s

/-- The polling loop of `wait_for_reserved_ip_creation`. -/
def waitCreationGo (token : Str) (dropletId : Nat) :
    List (List ListAttempt) → S → Option Str × Nat × S
  | [], s => (none, 0, s)
  | p :: rest, s =>
      let f := find_machine_reserved_ip token dropletId p s
      match f.1 with
      | some ip => (some ip, 1, f.2.2)
      | none =>
          let w := waitCreationGo token dropletId rest (sleep 10 f.2.2)
          (w.1, w.2.1 + 1, w.2.2)

/-- Source `wait_for_reserved_ip_creation(token, droplet_id, max_wait_time=120)`. -/
def wait_for_reserved_ip_creation (token : Str) (dropletId : Nat)
    (polls : Nat → List ListAttempt) (maxWait : Nat) (s : S) : Option Str × Nat × S :=
  waitCreationGo token dropletId ((List.range (numPolls maxWait)).map polls) s

/-- One HTTP attempt of the create request: 201/202 with a body, a 422 whose
body parses to a message, a 422 whose body fails to parse, or any other
status / transport exception. -/
inductive CreateAttempt where
  | ok (info : RipInfo)
  | unprocessable (msg : Str)
  | unprocessableNoJson
  | failure
deriving DecidableEq, Repr

/-- What `create_reserved_ip` returns: the `reserved_ip` body on success, an
error dict `{'error': kind, 'message': msg}`, or Python `None` after exhausted
generic retries. -/
inductive CreateResult where
  | info (i : RipInfo)
  | err (kind msg : Str)
  | noResult
deriving DecidableEq, Repr

/-- Source `create_reserved_ip(token, droplet_id, retries=3)`: 201/202 returns the
body; a 422 whose message contains the quota needle returns the
`quota_exceeded` dict at once (no retry, no sleep); any other 422 returns the
`unprocessable_entity` dict at once; other failures sleep 2s and retry, and
exhaustion returns `None`. Also returns the number of HTTP attempts made. -/
def create_reserved_ip : List CreateAttempt → S → CreateResult × Nat × S
  | [], s => (CreateResult.noResult, 0, s)
  | CreateAttempt.ok i :: _, s => (CreateResult.info i, 1, s)
  | CreateAttempt.unprocessable m :: _, s =>
      if strContainsSub m sQuotaNeedle then (CreateResult.err kQuota m, 1, s)
      else (CreateResult.err kUnproc m, 1, s)
  | CreateAttempt.unprocessableNoJson :: _, s => (CreateResult.err kUnproc [], 1, s)
  | CreateAttempt.failure :: rest, s =>
      match rest with
      | [] => (CreateResult.noResult, 1, s)
      | r :: rs =>
          let q := create_reserved_ip (r :: rs) (sleep 2 s)
          (q.1, q.2.1 + 1, q.2.2)

/-- One HTTP attempt of the delete request: 204, a 404 (with the parsed or
fallback message), a 422 with a parsed message, a 422 whose body fails to
parse, or any other status / transport exception. -/
inductive DeleteAttempt where
  | ok
  | notFound (msg : Str)
  | unprocessable (msg : Str)
  | unprocessableNoJson
  | failure
deriving DecidableEq, Repr

/-- What `delete_reserved_ip` returns: Python `True`, Python `False`, or an
error dict `{'error': kind, 'message': msg, 'ip': ...}`. -/
inductive DeleteResult where
  | ok
  | failed
  | err (kind msg : Str)
deriving DecidableEq, Repr

/-- The `for attempt in range(retries)` loop of `delete_reserved_ip`:
204 returns `True`; 404 returns the `not_found` dict at once; a 422 whose
lowered message contains "pending event" sleeps `5 + attempt*2` and retries,
or on the final attempt returns the `pending_event` dict; any other 422
returns the `unprocessable_entity` dict at once; other failures sleep
`3 + attempt` and retry, and exhaustion returns `False`. -/
def deleteLoop (attempt : Nat) : List DeleteAttempt → S → DeleteResult × Nat × S
  | [], s => (DeleteResult.failed, 0, s)
  | DeleteAttempt.ok :: _, s => (DeleteResult.ok, 1, s)
  | DeleteAttempt.notFound m :: _, s => (DeleteResult.err kNotFound m, 1, s)
  | DeleteAttempt.unprocessable m :: rest, s =>
      if strContainsSub (strToLower m) sPendingNeedle then
        match rest with
        | [] => (DeleteResult.err kPendingEvent m, 1, s)
        | r :: rs =>
            let q := deleteLoop (attempt + 1) (r :: rs) (sleep (5 + attempt * 2) s)
            (q.1, q.2.1 + 1, q.2.2)
      else (DeleteResult.err kUnproc m, 1, s)
  | DeleteAttempt.unprocessableNoJson :: _, s => (DeleteResult.err kUnproc sUnknown422, 1, s)
  | DeleteAttempt.failure :: rest, s =>
      match rest with
      | [] => (DeleteResult.failed, 1, s)
      | r :: rs =>
          let q := deleteLoop (attempt + 1) (r :: rs) (sleep (3 + attempt) s)
          (q.1, q.2.1 + 1, q.2.2)

/-- Source `delete_reserved_ip(token, reserved_ip, retries=3)`. -/
def delete_reserved_ip (responses : List DeleteAttempt) (s : S) : DeleteResult × Nat × S :=
  deleteLoop 0 responses s

/-- Python truthiness of a `delete_reserved_ip` result, as tested by the
orchestrator's `if not delete_success:`: `False` is falsy; `True` and every
(non-empty) error dict are truthy. -/
def deleteTruthy : DeleteResult → Bool
  | DeleteResult.failed => false
  | _ => true

abbrev CreateErr := Str × Str

/-- Exit value of the CREATE_NEW retry loop of `replace_reserved_ip`: either
the quota short-circuit `return error_response(...)` taken inside the loop, or
the loop finished with a final `new_reserved_ip_info` and `last_error`. -/
inductive CreateLoopOut where
  | quota (msg : Str)
  | done (cur : CreateResult) (lastError : Option CreateErr)
deriving DecidableEq, Repr

/-- The `for attempt in range(max_retries)` create loop of
`replace_reserved_ip` (max_retries = 3): errors record `last_error`;
`quota_exceeded` returns immediately; other errors sleep `(attempt+1)*15` and
retry unless this was the final attempt; a success or a `None` result breaks
out. Returns (exit value, number of `create_reserved_ip` calls, total HTTP
attempts inside those calls, state). -/
def createPhaseLoop (streams : Nat → List CreateAttempt) :
    Nat → Nat → CreateResult → Option CreateErr → S → CreateLoopOut × Nat × Nat × S
  | _, 0, cur, le, s => (CreateLoopOut.done cur le, 0, 0, s)
  | attempt, r + 1, _, le, s =>
      let c := create_reserved_ip (streams attempt) s
      match c.1 with
      | CreateResult.info i => (CreateLoopOut.done (CreateResult.info i) le, 1, c.2.1, c.2.2)
      | CreateResult.noResult => (CreateLoopOut.done CreateResult.noResult le, 1, c.2.1, c.2.2)
      | CreateResult.err kind m =>
          if kind == kQuota then (CreateLoopOut.quota m, 1, c.2.1, c.2.2)
          else
            match r with
            | 0 => (CreateLoopOut.done (CreateResult.err kind m) (some (kind, m)), 1, c.2.1, c.2.2)
            | _ + 1 =>
                let s2 := sleep ((attempt + 1) * 15) c.2.2
                let w := createPhaseLoop streams (attempt + 1) r (CreateResult.err kind m)
                  (some (kind, m)) s2
                (w.1, w.2.1 + 1, w.2.2.1 + c.2.1, w.2.2.2)

/-- The whole CREATE_NEW phase: the loop above started at attempt 0 with
`max_retries = 3`, `new_reserved_ip_info = None`, `last_error = None`. -/
def createPhase (streams : Nat → List CreateAttempt) (s : S) : CreateLoopOut × Nat × Nat × S :=
  createPhaseLoop streams 0 3 CreateResult.noResult none s

/-- Python `error_details = last_error or new_reserved_ip_info or default` of the final
check (`none` stands for the default `{"message": "未知错误"}` dict). -/
def errDetails (le : Option CreateErr) (cur : CreateResult) : Option CreateErr :=
  match le with
  | some e => some e
  | none =>
      match cur with
      | CreateResult.err k m => some (k, m)
      | _ => none

/-- Outcome of `replace_reserved_ip`, one constructor per distinct
`error_response`/`success_response` exit of the route. -/
inductive ReplaceOutcome where
  | noCurrentIp
  | deleteFailed
  | deleteTimeout
  | quotaExceeded (msg : Str)
  | createFailedAfterRetries (details : Option CreateErr)
  | createTimeout
  | completed (oldIp newIp : Str)
deriving DecidableEq, Repr

/-- The provider's scripted behaviour for one run of `replace_reserved_ip`:
response streams for the locate fetch, the delete call, each delete-confirm
poll, each orchestrator-level create call, and each create-confirm poll. -/
structure ReplaceEnv where
  locateResp : List ListAttempt
  deleteResp : List DeleteAttempt
  delPolls : Nat → List ListAttempt
  createStreams : Nat → List CreateAttempt
  createPolls : Nat → List ListAttempt

/-- Observable result of one run of `replace_reserved_ip`: the outcome, how
many `create_reserved_ip` calls were made, the total HTTP attempts inside
them, how many delete-confirm polls ran, and the final state. -/
structure ReplaceResult where
  outcome : ReplaceOutcome
  createCalls : Nat
  createHttpAttempts : Nat
  deletePolls : Nat
  final : S
deriving DecidableEq, Repr

/-- Steps 5–7 of `replace_reserved_ip` (everything after CONFIRM_DELETE and
the settle sleep): the CREATE_NEW phase followed by CONFIRM_CREATE. `oldIp` is
the located IP, `np` the number of confirm-delete polls already performed. -/
def afterConfirm (token oldIp : Str) (dropletId : Nat) (cs : Nat → List CreateAttempt)
    (cpolls : Nat → List ListAttempt) (s : S) (np : Nat) : ReplaceResult :=
  let cp := createPhase cs s
  match cp.1 with
  | CreateLoopOut.quota m =>
      ⟨ReplaceOutcome.quotaExceeded m, cp.2.1, cp.2.2.1, np, cp.2.2.2⟩
  | CreateLoopOut.done cur le =>
      match cur with
      | CreateResult.info _ =>
          let wc := wait_for_reserved_ip_creation token dropletId cpolls 120 cp.2.2.2
          match wc.1 with
          | none => ⟨ReplaceOutcome.createTimeout, cp.2.1, cp.2.2.1, np, wc.2.2⟩
          | some y => ⟨ReplaceOutcome.completed oldIp y, cp.2.1, cp.2.2.1, np, wc.2.2⟩
      | _ =>
          ⟨ReplaceOutcome.createFailedAfterRetries (errDetails le cur), cp.2.1,
            cp.2.2.1, np, cp.2.2.2⟩

/-- Source `replace_reserved_ip(machine_name)` (the machine's token and droplet id
already resolved): locate the current IP, delete it (proceeding whenever the
result is truthy — `if not delete_success:`), confirm deletion by polling with
a 120s budget, sleep 10s, then run the CREATE_NEW phase and CONFIRM_CREATE
(`afterConfirm`). -/
def replace_reserved_ip (token : Str) (dropletId : Nat) (env : ReplaceEnv) (s : S) :
    ReplaceResult :=
  let fr := find_machine_reserved_ip token dropletId env.locateResp s
  match fr.1 with
  | none => ⟨ReplaceOutcome.noCurrentIp, 0, 0, 0, fr.2.2⟩
  | some oldIp =>
      let dr := delete_reserved_ip env.deleteResp fr.2.2
      if deleteTruthy dr.1 then
        let w := wait_for_reserved_ip_deletion token oldIp env.delPolls 120 dr.2.2
        if w.1 then
          afterConfirm token oldIp dropletId env.createStreams env.createPolls
            (sleep 10 w.2.2) w.2.1
        else ⟨ReplaceOutcome.deleteTimeout, 0, 0, w.2.1, w.2.2⟩
      else ⟨ReplaceOutcome.deleteFailed, 0, 0, 0, dr.2.2⟩

/-- Per-account fetch behaviour seen by the aggregator: either a reserved-IP
list or a raised exception with its message. -/
inductive FetchOutcome where
  | ok (ips : List ReservedIp)
  | exn (msg : Str)
deriving DecidableEq, Repr

/-- One value of the dict returned by `get_all_tokens_reserved_ips`. -/
structure TokenResult where
  token_key : Str
  reserved_ips : List ReservedIp
  reserved_ips_count : Nat
  status : Str
  error : Option Str
deriving DecidableEq, Repr

/-- The token extraction of `fetch_token_data`: Python
`token_value.split(":", 1)[1].strip()` when the value contains a colon. -/
def extractToken (v : Str) : Str :=
  if v.contains ':' then strTrim ((v.dropWhile (fun c => !(c == ':'))).drop 1) else v

/-- Source `fetch_token_data(token_key, token_value)`: a successful fetch is tagged
`success` with the list and its length; an exception is caught and converted
into a `failed` entry carrying `str(e)` — it is never re-raised. -/
def fetch_token_data (fetches : Str → FetchOutcome) (tk tv : Str) : TokenResult :=
  match fetches (extractToken tv) with
  | FetchOutcome.ok ips => ⟨tk, ips, ips.length, sSuccess, none⟩
  | FetchOutcome.exn m => ⟨tk, [], 0, sFailed, some m⟩

/-- Source `get_all_tokens_reserved_ips(use_cache=True)`: one fetch per config key
starting with "do_token"; all results (every `fetch_token_data` value is a
dict) are collected into the returned mapping. -/
def get_all_tokens_reserved_ips (config : List (Str × Str)) (fetches : Str → FetchOutcome) :
    List (Str × TokenResult) :=
  (config.filter (fun kv => listStartsWith sDoToken kv.1)).map
    (fun kv => (kv.1, fetch_token_data fetches kv.1 kv.2))

/-- Invariant used to reason about the confirm-delete polling: whatever the
reserved-IP cache holds under this token's key still lists the IP `X`. -/
def cacheOkAt (c : Cache) (token X : Str) : Prop :=
  ∀ d ts, List.lookup (getCacheKey token sReservedIps) c = some (d, ts) → ipPresent d X = true

/-- Concrete data used by closed counterexample/witness theorems below. -/
def tokTest : Str := "tokentoken123".toList

def ipX : Str := "1.2.3.4".toList

def ipY : Str := "5.6.7.8".toList

def pendingMsgTest : Str := "there is a pending event".toList

def quotaMsgTest : Str := "you will exceed your Reserved IP limit".toList

def genericMsgTest : Str := "boom".toList

/-! Basic lemmas about the cache primitives. -/

theorem lookup_setCache_self (c : Cache) (k : Str) (v : List ReservedIp) (t : Nat) :
    List.lookup k (setCache c k v t) = some (v, t) := by
  simp [setCache, List.lookup]

theorem lookup_cacheErase_self (c : Cache) (k : Str) :
    List.lookup k (cacheErase c k) = none := by
  induction c with
  | nil => rfl
  | cons e es ih =>
      simp only [cacheErase, List.filter] at ih ⊢
      cases he : (e.1 == k) with
      | true => simpa using ih
      | false =>
          have hne : (k == e.1) = false := by
            have : ¬ e.1 = k := by simpa using he
            simpa using fun h => this h.symm
          simpa [List.lookup, hne] using ih

theorem findIp_present {l : List ReservedIp} {did : Nat} {X : Str}
    (h : findIpForDroplet l did = some X) : ipPresent l X = true := by
  unfold findIpForDroplet at h
  cases hf : l.find? (fun r => r.dropletId == some did) with
  | none => rw [hf] at h; simp at h
  | some r =>
      rw [hf] at h
      simp only [Option.map_some'] at h
      have hm := List.mem_of_find?_eq_some hf
      have hip : r.ip = X := by simpa using h
      unfold ipPresent
      exact List.any_eq_true.mpr ⟨r, hm, by simp [hip]⟩

/-- Claim C7 counterexample: with the default budget of 3 attempts and a
pending-event 422 on every attempt, the observed backoff sleeps are [5, 7] —
not the claimed schedule [5, 7, 9]; the final attempt returns the
classification without sleeping. -/
theorem claim_C7_counterexample :
    ¬ ((delete_reserved_ip [DeleteAttempt.unprocessable pendingMsgTest,
          DeleteAttempt.unprocessable pendingMsgTest,
          DeleteAttempt.unprocessable pendingMsgTest] ⟨[], 0, []⟩).2.2.sleeps = [5, 7, 9]) := by
  decide

/-- Claim C7 (amended): a delete whose three attempts all answer HTTP 422
"pending event" sleeps 5s then 7s between the attempts (the 9s step of the
`5 + 2*attempt` schedule is never reached because the final attempt returns
without sleeping) and returns the pending-event classification dict rather
than raising. -/
theorem claim_C7 (m0 m1 m2 : Str) (c : Cache) (t : Nat) (sl : List Nat)
    (h0 : strContainsSub (strToLower m0) sPendingNeedle = true)
    (h1 : strContainsSub (strToLower m1) sPendingNeedle = true)
    (h2 : strContainsSub (strToLower m2) sPendingNeedle = true) :
    delete_reserved_ip [DeleteAttempt.unprocessable m0, DeleteAttempt.unprocessable m1,
        DeleteAttempt.unprocessable m2] ⟨c, t, sl⟩ =
      (DeleteResult.err kPendingEvent m2, 3, ⟨c, t + 12, sl ++ [5, 7]⟩) := by
  have ht : t + 5 + 7 = t + 12 := by omega
  simp [delete_reserved_ip, deleteLoop, h0, h1, h2, sleep, ht]

theorem claim_C7_witness :
    delete_reserved_ip [DeleteAttempt.unprocessable pendingMsgTest,
        DeleteAttempt.unprocessable pendingMsgTest,
        DeleteAttempt.unprocessable pendingMsgTest] ⟨[], 0, []⟩ =
      (DeleteResult.err kPendingEvent pendingMsgTest, 3, ⟨[], 0 + 12, [] ++ [5, 7]⟩) :=
  claim_C7 pendingMsgTest pendingMsgTest pendingMsgTest [] 0 []
    (by decide) (by decide) (by decide)

/-- Claim C8: an entry written by `_set_cache` at time t is returned unchanged
(and left in place) by any `_get_from_cache` read strictly before t+30s, and
any read at or after t+30s is a miss that also deletes the entry from the
store; expiry is only ever checked inside the read itself. -/
theorem claim_C8 (c : Cache) (k : Str) (v : List ReservedIp) (t d : Nat) :
    (d < 30 → getFromCache (setCache c k v t) k (t + d) = (some v, setCache c k v t)) ∧
    (30 ≤ d →
      getFromCache (setCache c k v t) k (t + d) = (none, cacheErase (setCache c k v t) k) ∧
      List.lookup k (cacheErase (setCache c k v t) k) = none) := by
  constructor
  · intro hd
    unfold getFromCache
    rw [lookup_setCache_self]
    simp [cacheTimeoutSec, Nat.add_sub_cancel_left, hd]
  · intro hd
    refine ⟨?_, lookup_cacheErase_self _ _⟩
    unfold getFromCache
    rw [lookup_setCache_self]
    simp [cacheTimeoutSec, Nat.add_sub_cancel_left]
    omega

theorem claim_C8_witness :
    getFromCache (setCache [] tokTest [⟨ipX, some 7⟩] 0) tokTest (0 + 29) =
      (some [⟨ipX, some 7⟩], setCache [] tokTest [⟨ipX, some 7⟩] 0) ∧
    getFromCache (setCache [] tokTest [⟨ipX, some 7⟩] 0) tokTest (0 + 31) =
      (none, cacheErase (setCache [] tokTest [⟨ipX, some 7⟩] 0) tokTest) :=
  ⟨(claim_C8 [] tokTest [⟨ipX, some 7⟩] 0 29).1 (by decide),
   ((claim_C8 [] tokTest [⟨ipX, some 7⟩] 0 31).2 (by decide)).1⟩

theorem getLoop_false_frame :
    ∀ (resp : List ListAttempt) (k : Str) (c c' : Cache) (t : Nat) (sl : List Nat),
    ((getReservedIpsLoop false k resp ⟨c, t, sl⟩).2.2).cache = c ∧
    (getReservedIpsLoop false k resp ⟨c, t, sl⟩).1 =
      (getReservedIpsLoop false k resp ⟨c', t, sl⟩).1 ∧
    (getReservedIpsLoop false k resp ⟨c, t, sl⟩).2.1 =
      (getReservedIpsLoop false k resp ⟨c', t, sl⟩).2.1 ∧
    ((getReservedIpsLoop false k resp ⟨c, t, sl⟩).2.2).now =
      ((getReservedIpsLoop false k resp ⟨c', t, sl⟩).2.2).now ∧
    ((getReservedIpsLoop false k resp ⟨c, t, sl⟩).2.2).sleeps =
      ((getReservedIpsLoop false k resp ⟨c', t, sl⟩).2.2).sleeps := by
  intro resp
  induction resp with
  | nil => intro k c c' t sl; exact ⟨rfl, rfl, rfl, rfl, rfl⟩
  | cons a rest ih =>
      intro k c c' t sl
      cases a with
      | ok ips => simp [getReservedIpsLoop]
      | failure =>
          cases rest with
          | nil => simp [getReservedIpsLoop]
          | cons r rs =>
              have h := ih k c c' (t + 2) (sl ++ [2])
              simp only [getReservedIpsLoop, sleep]
              exact ⟨h.1, h.2.1, by rw [h.2.2.1], h.2.2.2.1, h.2.2.2.2⟩

/-- Claim C10: `get_reserved_ips` with `use_cache=False` never reads and never
writes the cache: the cache after the call is exactly the cache before it, and
the returned listing, the attempt count, the clock and the sleep log are all
independent of the cache contents. -/
theorem claim_C10 (token : Str) (resp : List ListAttempt) (c c' : Cache) (t : Nat)
    (sl : List Nat) :
    ((get_reserved_ips token false resp ⟨c, t, sl⟩).2.2).cache = c ∧
    (get_reserved_ips token false resp ⟨c, t, sl⟩).1 =
      (get_reserved_ips token false resp ⟨c', t, sl⟩).1 ∧
    (get_reserved_ips token false resp ⟨c, t, sl⟩).2.1 =
      (get_reserved_ips token false resp ⟨c', t, sl⟩).2.1 ∧
    ((get_reserved_ips token false resp ⟨c, t, sl⟩).2.2).now =
      ((get_reserved_ips token false resp ⟨c', t, sl⟩).2.2).now ∧
    ((get_reserved_ips token false resp ⟨c, t, sl⟩).2.2).sleeps =
      ((get_reserved_ips token false resp ⟨c', t, sl⟩).2.2).sleeps := by
  simpa [get_reserved_ips] using
    getLoop_false_frame resp (getCacheKey token sReservedIps) c c' t sl

/-- Claim C6: with two configured accounts where the first fetch raises and
the second succeeds, the aggregator returns both entries — the first tagged
failed with the captured message, the second tagged success with its listing —
without raising and without omitting the successful account. -/
theorem claim_C6 (va vb m : Str) (ips : List ReservedIp) (fetches : Str → FetchOutcome)
    (ha : fetches (extractToken va) = FetchOutcome.exn m)
    (hb : fetches (extractToken vb) = FetchOutcome.ok ips) :
    get_all_tokens_reserved_ips [("do_token1".toList, va), ("do_token2".toList, vb)] fetches =
      [("do_token1".toList, ⟨"do_token1".toList, [], 0, sFailed, some m⟩),
       ("do_token2".toList, ⟨"do_token2".toList, ips, ips.length, sSuccess, none⟩)] := by
  have hf1 : listStartsWith sDoToken ['d', 'o', '_', 't', 'o', 'k', 'e', 'n', '1'] = true := by
    decide
  have hf2 : listStartsWith sDoToken ['d', 'o', '_', 't', 'o', 'k', 'e', 'n', '2'] = true := by
    decide
  simp [get_all_tokens_reserved_ips, fetch_token_data, List.filter, hf1, hf2, ha, hb]

theorem claim_C6_witness :
    get_all_tokens_reserved_ips [("do_token1".toList, "a".toList), ("do_token2".toList, "b".toList)]
        (fun s => if s == "a".toList then FetchOutcome.exn genericMsgTest
                  else FetchOutcome.ok [⟨ipX, none⟩]) =
      [("do_token1".toList, ⟨"do_token1".toList, [], 0, sFailed, some genericMsgTest⟩),
       ("do_token2".toList,
        ⟨"do_token2".toList, [⟨ipX, none⟩], [ReservedIp.mk ipX none].length, sSuccess, none⟩)] :=
  claim_C6 ("a".toList) ("b".toList) genericMsgTest [⟨ipX, none⟩] _ (by decide) (by decide)

/-- Claim C2 (evaluation at the failing input): the delete call classifies the
three pending-event 422s as the failure dict `{'error': 'pending_event', ...}`
(last conjunct), yet the orchestrator — whose `if not delete_success:` treats
any non-empty dict as truthy — proceeds to the confirm-delete polling (3 polls
run) and then to the create phase (a create call is issued), ending in
`create_failed_after_retries` instead of the delete-failed exit the spec
requires for a pending-event delete outcome. -/
theorem claim_C2 :
    replace_reserved_ip tokTest 7
        ⟨[ListAttempt.ok [⟨ipX, some 7⟩]],
         [DeleteAttempt.unprocessable pendingMsgTest, DeleteAttempt.unprocessable pendingMsgTest,
          DeleteAttempt.unprocessable pendingMsgTest],
         fun _ => [ListAttempt.ok []],
         fun _ => [CreateAttempt.failure, CreateAttempt.failure, CreateAttempt.failure],
         fun _ => []⟩ ⟨[], 0, []⟩ =
      ⟨ReplaceOutcome.createFailedAfterRetries none, 1, 3, 3,
        ⟨[(getCacheKey tokTest sReservedIps, ([], 32))], 46, [5, 7, 10, 10, 10, 2, 2]⟩⟩ ∧
    delete_reserved_ip [DeleteAttempt.unprocessable pendingMsgTest,
        DeleteAttempt.unprocessable pendingMsgTest,
        DeleteAttempt.unprocessable pendingMsgTest] ⟨[], 0, []⟩ =
      (DeleteResult.err kPendingEvent pendingMsgTest, 3, ⟨[], 12, [5, 7]⟩) := by
  decide

/-- Claim C1 counterexample: two runs of the delete-confirmation poll loop in
which every provider listing response reports the IP already absent, differing
only in whether the cache still holds a pre-delete listing containing the IP.
The stale-cache run observes the IP as present on its first two polls (cache
hits) and sleeps twice before succeeding on the third poll; the empty-cache
run succeeds on the first poll with no sleep. Hence the confirmation polls do
NOT bypass the cache, and a poll iteration can observe a cached listing taken
before the delete request. -/
theorem claim_C1_counterexample :
    (wait_for_reserved_ip_deletion tokTest ipX (fun _ => [ListAttempt.ok []]) 120
        ⟨[(getCacheKey tokTest sReservedIps, ([⟨ipX, some 7⟩], 0))], 10, []⟩ =
      (true, 3, ⟨[(getCacheKey tokTest sReservedIps, ([], 30))], 30, [10, 10]⟩)) ∧
    (wait_for_reserved_ip_deletion tokTest ipX (fun _ => [ListAttempt.ok []]) 120
        ⟨[], 10, []⟩ =
      (true, 1, ⟨[(getCacheKey tokTest sReservedIps, ([], 10))], 10, []⟩)) := by
  decide

/-! Sleep-log monotonicity: every operation only appends to the sleep log. -/

theorem getLoop_sleeps_ext (u : Bool) (k : Str) :
    ∀ (resp : List ListAttempt) (s : S),
    ∃ e, ((getReservedIpsLoop u k resp s).2.2).sleeps = s.sleeps ++ e := by
  intro resp
  induction resp with
  | nil => intro s; exact ⟨[], by simp [getReservedIpsLoop]⟩
  | cons a rest ih =>
      intro s
      cases a with
      | ok ips => exact ⟨[], by simp [getReservedIpsLoop]⟩
      | failure =>
          cases rest with
          | nil => exact ⟨[], by simp [getReservedIpsLoop]⟩
          | cons r rs =>
              obtain ⟨e, he⟩ := ih (sleep 2 s)
              refine ⟨2 :: e, ?_⟩
              simp only [getReservedIpsLoop]
              rw [he]
              simp [sleep]

theorem get_sleeps_ext (token : Str) (u : Bool) (resp : List ListAttempt) (s : S) :
    ∃ e, ((get_reserved_ips token u resp s).2.2).sleeps = s.sleeps ++ e := by
  unfold get_reserved_ips
  cases u with
  | false => simpa using getLoop_sleeps_ext false (getCacheKey token sReservedIps) resp s
  | true =>
      simp only [if_true]
      cases hg : (getFromCache s.cache (getCacheKey token sReservedIps) s.now).1 with
      | some d => exact ⟨[], by simp [hg]⟩
      | none =>
          simp only [hg]
          exact getLoop_sleeps_ext true (getCacheKey token sReservedIps) resp _

theorem waitDelGo_sleeps_ext (token ip : Str) :
    ∀ (ps : List (List ListAttempt)) (s : S),
    ∃ e, ((waitDeletionGo token ip ps s).2.2).sleeps = s.sleeps ++ e := by
  intro ps
  induction ps with
  | nil => intro s; exact ⟨[], by simp [waitDeletionGo]⟩
  | cons p rest ih =>
      intro s
      obtain ⟨e1, he1⟩ := get_sleeps_ext token true p s
      cases hb : ipPresent ((get_reserved_ips token true p s).1) ip with
      | true =>
          obtain ⟨e2, he2⟩ := ih (sleep 10 ((get_reserved_ips token true p s).2.2))
          refine ⟨e1 ++ 10 :: e2, ?_⟩
          simp only [waitDeletionGo, hb, if_true]
          rw [he2]
          simp [sleep, he1]
      | false =>
          refine ⟨e1, ?_⟩
          simp [waitDeletionGo, hb, he1]

/-- Claim C1 (amended): the confirmation polls of the replace orchestrator
fetch the reserved-IP list through `get_reserved_ips(token)` with the default
`use_cache=True`, so a poll iteration CAN observe a cached listing taken
before the delete request: whenever the cache still holds a fresh (age < 30s)
listing under the token's key that contains the old IP, the first
confirm-delete poll reports the IP as present — regardless of what the
provider answers — and the loop sleeps 10s instead of confirming. -/
theorem waitDelGo_cons (token ip : Str) (p : List ListAttempt) (ps : List (List ListAttempt))
    (s : S) :
    waitDeletionGo token ip (p :: ps) s =
      if ipPresent ((get_reserved_ips token true p s).1) ip then
        ((waitDeletionGo token ip ps (sleep 10 ((get_reserved_ips token true p s).2.2))).1,
         (waitDeletionGo token ip ps (sleep 10 ((get_reserved_ips token true p s).2.2))).2.1 + 1,
         (waitDeletionGo token ip ps (sleep 10 ((get_reserved_ips token true p s).2.2))).2.2)
      else (true, 1, (get_reserved_ips token true p s).2.2) := rfl

theorem claim_C1 (token ip : Str) (l : List ReservedIp) (ts : Nat) (c : Cache) (t : Nat)
    (sl : List Nat) (polls : Nat → List ListAttempt)
    (hl : List.lookup (getCacheKey token sReservedIps) c = some (l, ts))
    (hfresh : t - ts < cacheTimeoutSec)
    (hpresent : ipPresent l ip = true) :
    ∃ rest, ((wait_for_reserved_ip_deletion token ip polls 120 ⟨c, t, sl⟩).2.2).sleeps
      = sl ++ 10 :: rest := by
  unfold wait_for_reserved_ip_deletion
  have h12 : numPolls 120 = 12 := rfl
  rw [h12, show (12 : Nat) = 11 + 1 from rfl, List.range_succ_eq_map, List.map_cons,
    waitDelGo_cons]
  have hget : get_reserved_ips token true (polls 0) ⟨c, t, sl⟩ = (l, 0, ⟨c, t, sl⟩) := by
    unfold get_reserved_ips getFromCache
    simp [hl, hfresh]
  rw [hget]
  simp only [hpresent, if_true]
  obtain ⟨e, he⟩ :=
    waitDelGo_sleeps_ext token ip (List.map polls (List.map Nat.succ (List.range 11)))
      (sleep 10 ⟨c, t, sl⟩)
  refine ⟨e, ?_⟩
  rw [he]
  simp [sleep]

theorem claim_C1_witness :
    ∃ rest,
      ((wait_for_reserved_ip_deletion tokTest ipX (fun _ => [ListAttempt.ok []]) 120
          ⟨[(getCacheKey tokTest sReservedIps, ([⟨ipX, some 7⟩], 0))], 10, []⟩).2.2).sleeps
        = [] ++ 10 :: rest :=
  claim_C1 tokTest ipX [⟨ipX, some 7⟩] 0
    [(getCacheKey tokTest sReservedIps, ([⟨ipX, some 7⟩], 0))] 10 []
    (fun _ => [ListAttempt.ok []]) (by decide) (by decide) (by decide)

/-- Claim C9: the cache key depends only on the first 10 characters of the
token (plus the endpoint name), so for two distinct tokens sharing their first
10 characters the keys coincide, and a listing fetched (and cached) under the
first token is served from the cache — with zero HTTP attempts — to a
subsequent cached read under the second token within the TTL. -/
theorem claim_C9 (t1 t2 : Str) (ips : List ReservedIp) (t d : Nat) (sl sl2 : List Nat)
    (resp2 : List ListAttempt)
    (hne : t1 ≠ t2) (hpre : t1.take 10 = t2.take 10) (hd : d < 30) :
    getCacheKey t1 sReservedIps = getCacheKey t2 sReservedIps ∧
    (get_reserved_ips t1 true [ListAttempt.ok ips] ⟨[], t, sl⟩).1 = ips ∧
    (get_reserved_ips t2 true resp2
        ⟨((get_reserved_ips t1 true [ListAttempt.ok ips] ⟨[], t, sl⟩).2.2).cache,
          t + d, sl2⟩).1 = ips ∧
    (get_reserved_ips t2 true resp2
        ⟨((get_reserved_ips t1 true [ListAttempt.ok ips] ⟨[], t, sl⟩).2.2).cache,
          t + d, sl2⟩).2.1 = 0 := by
  have hkey : getCacheKey t1 sReservedIps = getCacheKey t2 sReservedIps := by
    unfold getCacheKey
    rw [hpre]
  have h1 : get_reserved_ips t1 true [ListAttempt.ok ips] ⟨[], t, sl⟩ =
      (ips, 1, ⟨[(getCacheKey t1 sReservedIps, (ips, t))], t, sl⟩) := by
    unfold get_reserved_ips getFromCache
    simp [List.lookup, getReservedIpsLoop, setCache, cacheErase]
  have h2 : get_reserved_ips t2 true resp2
      ⟨[(getCacheKey t1 sReservedIps, (ips, t))], t + d, sl2⟩ =
      (ips, 0, ⟨[(getCacheKey t1 sReservedIps, (ips, t))], t + d, sl2⟩) := by
    unfold get_reserved_ips getFromCache
    rw [← hkey]
    simp [List.lookup, cacheTimeoutSec, Nat.add_sub_cancel_left, hd]
  refine ⟨hkey, ?_, ?_, ?_⟩ <;> simp [h1, h2]

theorem claim_C9_witness :
    getCacheKey ("tokentoken123".toList) sReservedIps
      = getCacheKey ("tokentoken999xyz".toList) sReservedIps ∧
    (get_reserved_ips ("tokentoken123".toList) true [ListAttempt.ok [⟨ipX, some 7⟩]]
        ⟨[], 0, []⟩).1 = [⟨ipX, some 7⟩] ∧
    (get_reserved_ips ("tokentoken999xyz".toList) true []
        ⟨((get_reserved_ips ("tokentoken123".toList) true [ListAttempt.ok [⟨ipX, some 7⟩]]
            ⟨[], 0, []⟩).2.2).cache, 0 + 29, []⟩).1 = [⟨ipX, some 7⟩] ∧
    (get_reserved_ips ("tokentoken999xyz".toList) true []
        ⟨((get_reserved_ips ("tokentoken123".toList) true [ListAttempt.ok [⟨ipX, some 7⟩]]
            ⟨[], 0, []⟩).2.2).cache, 0 + 29, []⟩).2.1 = 0 :=
  claim_C9 ("tokentoken123".toList) ("tokentoken999xyz".toList) [⟨ipX, some 7⟩] 0 29 [] [] []
    (by decide) (by decide) (by decide)

/-! Lemmas tracking the confirm-delete polling when every provider listing
still reports the old IP. -/

theorem get_cases (token : Str) (resp : List ListAttempt) (s : S) :
    (∃ d, (getFromCache s.cache (getCacheKey token sReservedIps) s.now).1 = some d ∧
      get_reserved_ips token true resp s =
        (d, 0, ⟨(getFromCache s.cache (getCacheKey token sReservedIps) s.now).2,
          s.now, s.sleeps⟩)) ∨
    ((getFromCache s.cache (getCacheKey token sReservedIps) s.now).1 = none ∧
      get_reserved_ips token true resp s =
        getReservedIpsLoop true (getCacheKey token sReservedIps) resp
          ⟨(getFromCache s.cache (getCacheKey token sReservedIps) s.now).2,
            s.now, s.sleeps⟩) := by
  unfold get_reserved_ips
  cases hg : (getFromCache s.cache (getCacheKey token sReservedIps) s.now).1 with
  | some d => exact Or.inl ⟨d, rfl, by simp [hg]⟩
  | none => exact Or.inr ⟨rfl, by simp [hg]⟩

theorem getFromCache_eq_hit {c : Cache} {k : Str} {now : Nat} {d : List ReservedIp} {ts : Nat}
    (hl : List.lookup k c = some (d, ts)) (hfresh : now - ts < cacheTimeoutSec) :
    getFromCache c k now = (some d, c) := by
  simp [getFromCache, hl, hfresh]

theorem getFromCache_eq_stale {c : Cache} {k : Str} {now : Nat} {d : List ReservedIp} {ts : Nat}
    (hl : List.lookup k c = some (d, ts)) (hfresh : ¬ now - ts < cacheTimeoutSec) :
    getFromCache c k now = (none, cacheErase c k) := by
  simp [getFromCache, hl, hfresh]

theorem getFromCache_eq_none {c : Cache} {k : Str} {now : Nat}
    (hl : List.lookup k c = none) :
    getFromCache c k now = (none, c) := by
  simp [getFromCache, hl]

theorem getFromCache_some {c : Cache} {k : Str} {now : Nat} {d : List ReservedIp}
    (h : (getFromCache c k now).1 = some d) :
    (∃ ts, List.lookup k c = some (d, ts)) ∧ (getFromCache c k now).2 = c := by
  cases hl : List.lookup k c with
  | none => rw [getFromCache_eq_none hl] at h; simp at h
  | some e =>
      rcases e with ⟨d', ts⟩
      by_cases hfresh : now - ts < cacheTimeoutSec
      · rw [getFromCache_eq_hit hl hfresh] at h ⊢
        have : d' = d := by simpa using h
        subst this
        exact ⟨⟨ts, rfl⟩, rfl⟩
      · rw [getFromCache_eq_stale hl hfresh] at h
        simp at h

theorem getFromCache_none_cacheOk {token X : Str} {c : Cache} {now : Nat}
    (h : (getFromCache c (getCacheKey token sReservedIps) now).1 = none) :
    cacheOkAt ((getFromCache c (getCacheKey token sReservedIps) now).2) token X := by
  cases hl : List.lookup (getCacheKey token sReservedIps) c with
  | none =>
      rw [getFromCache_eq_none hl]
      intro d ts hd
      rw [hl] at hd
      exact absurd hd (by simp)
  | some e =>
      rcases e with ⟨d', ts'⟩
      by_cases hfresh : now - ts' < cacheTimeoutSec
      · rw [getFromCache_eq_hit hl hfresh] at h
        simp at h
      · rw [getFromCache_eq_stale hl hfresh]
        intro d ts hd
        rw [lookup_cacheErase_self] at hd
        exact absurd hd (by simp)

theorem getLoop_fst (u : Bool) (k : Str) :
    ∀ (resp : List ListAttempt) (s : S),
    (getReservedIpsLoop u k resp s).1 = httpFirstOk resp := by
  intro resp
  induction resp with
  | nil => intro s; rfl
  | cons a rest ih =>
      intro s
      cases a with
      | ok ips => rfl
      | failure =>
          cases rest with
          | nil => rfl
          | cons r rs =>
              simp only [getReservedIpsLoop, httpFirstOk]
              exact ih (sleep 2 s)

theorem getLoop_cacheOk (token X : Str) (u : Bool) :
    ∀ (resp : List ListAttempt) (s : S),
    cacheOkAt s.cache token X → ipPresent (httpFirstOk resp) X = true →
    cacheOkAt ((getReservedIpsLoop u (getCacheKey token sReservedIps) resp s).2.2).cache
      token X := by
  intro resp
  induction resp with
  | nil => intro s hc _; exact hc
  | cons a rest ih =>
      intro s hc hr
      cases a with
      | ok ips =>
          cases u with
          | false => simpa [getReservedIpsLoop] using hc
          | true =>
              intro d ts hd
              have hd2 : List.lookup (getCacheKey token sReservedIps)
                  (setCache s.cache (getCacheKey token sReservedIps) ips s.now) =
                    some (d, ts) := by
                simpa [getReservedIpsLoop] using hd
              rw [lookup_setCache_self] at hd2
              have hd' : ips = d := by
                simpa using (congrArg (fun o => o.map Prod.fst) hd2)
              subst hd'
              simpa [httpFirstOk] using hr
      | failure =>
          cases rest with
          | nil => exact fun d ts hd => hc d ts hd
          | cons r rs =>
              simp only [getReservedIpsLoop]
              exact ih (sleep 2 s) hc (by simpa [httpFirstOk] using hr)

theorem get_observed_cacheOk (token X : Str) (resp : List ListAttempt) (s : S)
    (hX : ipPresent ((get_reserved_ips token true resp s).1) X = true) :
    cacheOkAt ((get_reserved_ips token true resp s).2.2).cache token X := by
  rcases get_cases token resp s with ⟨d, hg, he⟩ | ⟨hg, he⟩
  · rw [he] at hX ⊢
    obtain ⟨⟨ts, hl⟩, h2⟩ := getFromCache_some hg
    simp only at hX ⊢
    rw [h2]
    intro d' ts' hl'
    rw [hl] at hl'
    have : d = d' := by simpa using (congrArg (fun o => o.map Prod.fst) hl')
    subst this
    exact hX
  · rw [he] at hX ⊢
    rw [getLoop_fst] at hX
    exact getLoop_cacheOk token X true resp _ (getFromCache_none_cacheOk hg) hX

theorem get_present_preserves (token X : Str) (resp : List ListAttempt) (s : S)
    (hr : ipPresent (httpFirstOk resp) X = true) (hc : cacheOkAt s.cache token X) :
    ipPresent ((get_reserved_ips token true resp s).1) X = true ∧
    cacheOkAt ((get_reserved_ips token true resp s).2.2).cache token X := by
  have hobs : ipPresent ((get_reserved_ips token true resp s).1) X = true := by
    rcases get_cases token resp s with ⟨d, hg, he⟩ | ⟨hg, he⟩
    · rw [he]
      obtain ⟨⟨ts, hl⟩, _⟩ := getFromCache_some hg
      exact hc d ts hl
    · rw [he, getLoop_fst]
      exact hr
  exact ⟨hobs, get_observed_cacheOk token X resp s hobs⟩

theorem locate_cacheOk (token X : Str) (did : Nat) (resp : List ListAttempt) (s : S)
    (h : (find_machine_reserved_ip token did resp s).1 = some X) :
    cacheOkAt ((find_machine_reserved_ip token did resp s).2.2).cache token X := by
  unfold find_machine_reserved_ip at h ⊢
  exact get_observed_cacheOk token X resp s (findIp_present h)

theorem waitDelGo_all_present (token X : Str) :
    ∀ (ps : List (List ListAttempt)) (s : S),
    (∀ p ∈ ps, ipPresent (httpFirstOk p) X = true) → cacheOkAt s.cache token X →
    (waitDeletionGo token X ps s).1 = false ∧
    (waitDeletionGo token X ps s).2.1 = ps.length := by
  intro ps
  induction ps with
  | nil => intro s _ _; exact ⟨rfl, rfl⟩
  | cons p rest ih =>
      intro s hp hc
      have h1 := get_present_preserves token X p s (hp p (List.mem_cons_self p rest)) hc
      have h2 := ih (sleep 10 ((get_reserved_ips token true p s).2.2))
        (fun q hq => hp q (List.mem_cons_of_mem p hq)) (by simpa [sleep] using h1.2)
      rw [waitDelGo_cons]
      simp only [h1.1, if_true]
      exact ⟨h2.1, by rw [h2.2]; simp⟩

/-- Claim C4: if the machine has a current reserved IP, the delete request is
accepted, and every confirm-delete poll (every provider listing) still reports
the old IP present, then after exhausting the 120-second budget (12 polls,
10 seconds apart) the workflow returns the distinct delete-timeout outcome and
no create call — indeed no create HTTP attempt — is ever issued. -/
theorem claim_C4 (token X : Str) (did : Nat) (env : ReplaceEnv) (c0 : Cache) (t0 : Nat)
    (sl0 : List Nat)
    (hfind : (find_machine_reserved_ip token did env.locateResp ⟨c0, t0, sl0⟩).1 = some X)
    (hdel : env.deleteResp = [DeleteAttempt.ok])
    (hpolls : ∀ i, ipPresent (httpFirstOk (env.delPolls i)) X = true) :
    (replace_reserved_ip token did env ⟨c0, t0, sl0⟩).outcome = ReplaceOutcome.deleteTimeout ∧
    (replace_reserved_ip token did env ⟨c0, t0, sl0⟩).createCalls = 0 ∧
    (replace_reserved_ip token did env ⟨c0, t0, sl0⟩).createHttpAttempts = 0 ∧
    (replace_reserved_ip token did env ⟨c0, t0, sl0⟩).deletePolls = 12 := by
  have hps : ∀ p ∈ (List.range (numPolls 120)).map env.delPolls,
      ipPresent (httpFirstOk p) X = true := by
    intro p hp
    obtain ⟨i, _, rfl⟩ := List.mem_map.mp hp
    exact hpolls i
  have hc := locate_cacheOk token X did env.locateResp ⟨c0, t0, sl0⟩ hfind
  have hw := waitDelGo_all_present token X ((List.range (numPolls 120)).map env.delPolls)
    ((find_machine_reserved_ip token did env.locateResp ⟨c0, t0, sl0⟩).2.2) hps hc
  have hlen : ((List.range (numPolls 120)).map env.delPolls).length = 12 := by
    simp [numPolls]
  have hdone : delete_reserved_ip [DeleteAttempt.ok]
      ((find_machine_reserved_ip token did env.locateResp ⟨c0, t0, sl0⟩).2.2) =
      (DeleteResult.ok, 1,
        (find_machine_reserved_ip token did env.locateResp ⟨c0, t0, sl0⟩).2.2) := rfl
  have hrep : replace_reserved_ip token did env ⟨c0, t0, sl0⟩ =
      ⟨ReplaceOutcome.deleteTimeout, 0, 0,
        (waitDeletionGo token X ((List.range (numPolls 120)).map env.delPolls)
          ((find_machine_reserved_ip token did env.locateResp ⟨c0, t0, sl0⟩).2.2)).2.1,
        (waitDeletionGo token X ((List.range (numPolls 120)).map env.delPolls)
          ((find_machine_reserved_ip token did env.locateResp ⟨c0, t0, sl0⟩).2.2)).2.2⟩ := by
    unfold replace_reserved_ip
    dsimp only
    rw [hfind, hdel, hdone]
    unfold wait_for_reserved_ip_deletion
    simp [deleteTruthy, hw.1]
  rw [hrep]
  exact ⟨rfl, rfl, rfl, by rw [hw.2, hlen]⟩

theorem claim_C4_witness :
    (replace_reserved_ip tokTest 7
        ⟨[ListAttempt.ok [⟨ipX, some 7⟩]], [DeleteAttempt.ok],
         fun _ => [ListAttempt.ok [⟨ipX, some 7⟩]], fun _ => [], fun _ => []⟩
        ⟨[], 0, []⟩).outcome = ReplaceOutcome.deleteTimeout ∧
    (replace_reserved_ip tokTest 7
        ⟨[ListAttempt.ok [⟨ipX, some 7⟩]], [DeleteAttempt.ok],
         fun _ => [ListAttempt.ok [⟨ipX, some 7⟩]], fun _ => [], fun _ => []⟩
        ⟨[], 0, []⟩).createCalls = 0 ∧
    (replace_reserved_ip tokTest 7
        ⟨[ListAttempt.ok [⟨ipX, some 7⟩]], [DeleteAttempt.ok],
         fun _ => [ListAttempt.ok [⟨ipX, some 7⟩]], fun _ => [], fun _ => []⟩
        ⟨[], 0, []⟩).createHttpAttempts = 0 ∧
    (replace_reserved_ip tokTest 7
        ⟨[ListAttempt.ok [⟨ipX, some 7⟩]], [DeleteAttempt.ok],
         fun _ => [ListAttempt.ok [⟨ipX, some 7⟩]], fun _ => [], fun _ => []⟩
        ⟨[], 0, []⟩).deletePolls = 12 :=
  claim_C4 tokTest ipX 7
    ⟨[ListAttempt.ok [⟨ipX, some 7⟩]], [DeleteAttempt.ok],
     fun _ => [ListAttempt.ok [⟨ipX, some 7⟩]], fun _ => [], fun _ => []⟩
    [] 0 [] (by decide) rfl
    (fun _ => show ipPresent (httpFirstOk [ListAttempt.ok [⟨ipX, some 7⟩]]) ipX = true by decide)

/-! Concrete computation of the phases before CREATE_NEW, for runs starting
from an empty cache at time 0 in which the provider accepts the delete and
reports the IP gone, while the stale cached locate listing delays the
confirmation by three polls. -/

theorem get_eq_hit (token : Str) (resp : List ListAttempt) (s : S) (d : List ReservedIp)
    (h : getFromCache s.cache (getCacheKey token sReservedIps) s.now = (some d, s.cache)) :
    get_reserved_ips token true resp s = (d, 0, ⟨s.cache, s.now, s.sleeps⟩) := by
  rcases get_cases token resp s with ⟨d', hg, he⟩ | ⟨hg, he⟩
  · rw [h] at hg he
    have hd : d = d' := by simpa using hg
    subst hd
    simpa using he
  · rw [h] at hg
    simp at hg

theorem get_eq_miss (token : Str) (resp : List ListAttempt) (s : S) (c2 : Cache)
    (h : getFromCache s.cache (getCacheKey token sReservedIps) s.now = (none, c2)) :
    get_reserved_ips token true resp s =
      getReservedIpsLoop true (getCacheKey token sReservedIps) resp ⟨c2, s.now, s.sleeps⟩ := by
  rcases get_cases token resp s with ⟨d', hg, he⟩ | ⟨hg, he⟩
  · rw [h] at hg
    simp at hg
  · rw [h] at he
    simpa using he

theorem locate_concrete (token X : Str) (did : Nat) (L : List ReservedIp)
    (hL : findIpForDroplet L did = some X) :
    find_machine_reserved_ip token did [ListAttempt.ok L] ⟨[], 0, []⟩ =
      (some X, 1, ⟨[(getCacheKey token sReservedIps, (L, 0))], 0, []⟩) := by
  have hg : get_reserved_ips token true [ListAttempt.ok L] ⟨[], 0, []⟩ =
      (L, 1, ⟨[(getCacheKey token sReservedIps, (L, 0))], 0, []⟩) := by
    have h1 := get_eq_miss token [ListAttempt.ok L] ⟨[], 0, []⟩ []
      (@getFromCache_eq_none [] (getCacheKey token sReservedIps) 0 rfl)
    rw [h1]
    simp [getReservedIpsLoop, setCache, cacheErase]
  unfold find_machine_reserved_ip
  rw [hg]
  simp [hL]

theorem waitdel_concrete (token X : Str) (L : List ReservedIp)
    (hX : ipPresent L X = true) :
    wait_for_reserved_ip_deletion token X (fun _ => [ListAttempt.ok []]) 120
      ⟨[(getCacheKey token sReservedIps, (L, 0))], 0, []⟩ =
      (true, 4, ⟨[(getCacheKey token sReservedIps, ([], 30))], 30, [10, 10, 10]⟩) := by
  have hlk : List.lookup (getCacheKey token sReservedIps)
      [(getCacheKey token sReservedIps, (L, 0))] = some (L, 0) := by
    simp [List.lookup]
  have hget0 : get_reserved_ips token true [ListAttempt.ok []]
      ⟨[(getCacheKey token sReservedIps, (L, 0))], 0, []⟩ =
      (L, 0, ⟨[(getCacheKey token sReservedIps, (L, 0))], 0, []⟩) :=
    get_eq_hit token [ListAttempt.ok []] ⟨[(getCacheKey token sReservedIps, (L, 0))], 0, []⟩ L
      (getFromCache_eq_hit hlk (show (0 : Nat) - 0 < cacheTimeoutSec by decide))
  have hget10 : get_reserved_ips token true [ListAttempt.ok []]
      ⟨[(getCacheKey token sReservedIps, (L, 0))], 10, [10]⟩ =
      (L, 0, ⟨[(getCacheKey token sReservedIps, (L, 0))], 10, [10]⟩) :=
    get_eq_hit token [ListAttempt.ok []] ⟨[(getCacheKey token sReservedIps, (L, 0))], 10, [10]⟩ L
      (getFromCache_eq_hit hlk (show (10 : Nat) - 0 < cacheTimeoutSec by decide))
  have hget20 : get_reserved_ips token true [ListAttempt.ok []]
      ⟨[(getCacheKey token sReservedIps, (L, 0))], 20, [10, 10]⟩ =
      (L, 0, ⟨[(getCacheKey token sReservedIps, (L, 0))], 20, [10, 10]⟩) :=
    get_eq_hit token [ListAttempt.ok []]
      ⟨[(getCacheKey token sReservedIps, (L, 0))], 20, [10, 10]⟩ L
      (getFromCache_eq_hit hlk (show (20 : Nat) - 0 < cacheTimeoutSec by decide))
  have herase : cacheErase [(getCacheKey token sReservedIps, (L, 0))]
      (getCacheKey token sReservedIps) = [] := by
    simp [cacheErase]
  have hget30 : get_reserved_ips token true [ListAttempt.ok []]
      ⟨[(getCacheKey token sReservedIps, (L, 0))], 30, [10, 10, 10]⟩ =
      ([], 1, ⟨[(getCacheKey token sReservedIps, ([], 30))], 30, [10, 10, 10]⟩) := by
    have h1 := get_eq_miss token [ListAttempt.ok []]
      ⟨[(getCacheKey token sReservedIps, (L, 0))], 30, [10, 10, 10]⟩ []
      (by rw [show (⟨[(getCacheKey token sReservedIps, (L, 0))], 30, [10, 10, 10]⟩ : S).cache =
          [(getCacheKey token sReservedIps, (L, 0))] from rfl,
        getFromCache_eq_stale hlk (show ¬ (30 : Nat) - 0 < cacheTimeoutSec by decide), herase])
    rw [h1]
    simp [getReservedIpsLoop, setCache, cacheErase]
  have hfalse : ipPresent ([] : List ReservedIp) X = false := rfl
  have hlist : (List.range (numPolls 120)).map (fun _ : Nat => [ListAttempt.ok []]) =
      List.replicate 12 [ListAttempt.ok []] := by decide
  unfold wait_for_reserved_ip_deletion
  rw [hlist, show List.replicate 12 [ListAttempt.ok []] =
    [ListAttempt.ok []] :: [ListAttempt.ok []] :: [ListAttempt.ok []] :: [ListAttempt.ok []] ::
      List.replicate 8 [ListAttempt.ok []] from rfl]
  rw [waitDelGo_cons, hget0]
  simp only [hX, if_true, sleep]
  norm_num
  rw [waitDelGo_cons, hget10]
  simp only [hX, if_true, sleep]
  norm_num
  rw [waitDelGo_cons, hget20]
  simp only [hX, if_true, sleep]
  norm_num
  rw [waitDelGo_cons, hget30]
  simp [hfalse]

theorem replace_reaches_create (token X : Str) (did : Nat) (L : List ReservedIp)
    (cs : Nat → List CreateAttempt) (cpolls : Nat → List ListAttempt)
    (hL : findIpForDroplet L did = some X) :
    replace_reserved_ip token did
        ⟨[ListAttempt.ok L], [DeleteAttempt.ok], fun _ => [ListAttempt.ok []], cs, cpolls⟩
        ⟨[], 0, []⟩ =
      afterConfirm token X did cs cpolls
        ⟨[(getCacheKey token sReservedIps, ([], 30))], 40, [10, 10, 10, 10]⟩ 4 := by
  have hX : ipPresent L X = true := findIp_present hL
  unfold replace_reserved_ip
  dsimp only
  rw [locate_concrete token X did L hL]
  dsimp only
  rw [show delete_reserved_ip [DeleteAttempt.ok]
      ⟨[(getCacheKey token sReservedIps, (L, 0))], 0, []⟩ =
    (DeleteResult.ok, 1, ⟨[(getCacheKey token sReservedIps, (L, 0))], 0, []⟩) from rfl]
  dsimp only [deleteTruthy]
  rw [if_pos rfl, waitdel_concrete token X L hX]
  dsimp only
  rw [if_pos rfl]
  simp [sleep]

theorem waitCreateGo_cons (token : Str) (did : Nat) (p : List ListAttempt)
    (ps : List (List ListAttempt)) (s : S) :
    waitCreationGo token did (p :: ps) s =
      (match (find_machine_reserved_ip token did p s).1 with
       | some ip => (some ip, 1, (find_machine_reserved_ip token did p s).2.2)
       | none =>
           ((waitCreationGo token did ps (sleep 10 ((find_machine_reserved_ip token did p s).2.2))).1,
            (waitCreationGo token did ps
              (sleep 10 ((find_machine_reserved_ip token did p s).2.2))).2.1 + 1,
            (waitCreationGo token did ps
              (sleep 10 ((find_machine_reserved_ip token did p s).2.2))).2.2)) := rfl

/-- Claim C3: a create call whose first provider response is HTTP 422 with a
message containing the quota needle makes exactly 1 HTTP attempt — whatever
responses would follow — with no backoff sleep and returns the quota-exceeded
classification immediately (first conjunct); and a replace workflow whose
CREATE_NEW phase receives that classification terminates immediately with
the quota-exceeded outcome after exactly 1 create call and 1 create HTTP
attempt, making no further create attempts (second conjunct). -/
theorem claim_C3 (token X m : Str) (did : Nat) (L : List ReservedIp)
    (rest : List CreateAttempt) (csRest : Nat → List CreateAttempt)
    (cpolls : Nat → List ListAttempt) (s : S)
    (hq : strContainsSub m sQuotaNeedle = true)
    (hL : findIpForDroplet L did = some X) :
    create_reserved_ip (CreateAttempt.unprocessable m :: rest) s =
      (CreateResult.err kQuota m, 1, s) ∧
    replace_reserved_ip token did
        ⟨[ListAttempt.ok L], [DeleteAttempt.ok], fun _ => [ListAttempt.ok []],
         fun a => if a == 0 then CreateAttempt.unprocessable m :: rest else csRest a, cpolls⟩
        ⟨[], 0, []⟩ =
      ⟨ReplaceOutcome.quotaExceeded m, 1, 1, 4,
        ⟨[(getCacheKey token sReservedIps, ([], 30))], 40, [10, 10, 10, 10]⟩⟩ := by
  have hcall : ∀ s' : S, create_reserved_ip (CreateAttempt.unprocessable m :: rest) s' =
      (CreateResult.err kQuota m, 1, s') := by
    intro s'
    simp [create_reserved_ip, hq]
  refine ⟨hcall s, ?_⟩
  rw [replace_reaches_create token X did L _ cpolls hL]
  have hphase : createPhase (fun a => if a == 0 then CreateAttempt.unprocessable m :: rest
      else csRest a) ⟨[(getCacheKey token sReservedIps, ([], 30))], 40, [10, 10, 10, 10]⟩ =
      (CreateLoopOut.quota m, 1, 1,
        ⟨[(getCacheKey token sReservedIps, ([], 30))], 40, [10, 10, 10, 10]⟩) := by
    simp [createPhase, createPhaseLoop, hcall]
  unfold afterConfirm
  dsimp only
  rw [hphase]

theorem claim_C3_witness :
    create_reserved_ip (CreateAttempt.unprocessable quotaMsgTest :: []) ⟨[], 0, []⟩ =
      (CreateResult.err kQuota quotaMsgTest, 1, ⟨[], 0, []⟩) ∧
    replace_reserved_ip tokTest 7
        ⟨[ListAttempt.ok [⟨ipX, some 7⟩]], [DeleteAttempt.ok], fun _ => [ListAttempt.ok []],
         fun a => if a == 0 then CreateAttempt.unprocessable quotaMsgTest :: []
                  else (fun _ : Nat => ([] : List CreateAttempt)) a,
         fun _ => []⟩ ⟨[], 0, []⟩ =
      ⟨ReplaceOutcome.quotaExceeded quotaMsgTest, 1, 1, 4,
        ⟨[(getCacheKey tokTest sReservedIps, ([], 30))], 40, [10, 10, 10, 10]⟩⟩ :=
  claim_C3 tokTest ipX quotaMsgTest 7 [⟨ipX, some 7⟩] [] (fun _ => []) (fun _ => [])
    ⟨[], 0, []⟩ (by decide) (by decide)

/-- Claim C5: in the CREATE_NEW phase of the replace workflow, a create call
failing twice with a generic (non-quota) 422 and succeeding on the third
attempt makes exactly 3 create calls with inter-attempt delays of 15s then 30s
(the final sleep log ends ..., 15, 30 after the four 10s confirm-delete polls
and the 10s settle delay) and the workflow completes (first conjunct); and
when all three attempts fail with generic errors the phase stops at exactly 3
calls and the workflow fails with create-failed-after-retries carrying the
last error (second conjunct). -/
theorem claim_C5 (token X Y m0 m1 m2 : Str) (did : Nat) (L : List ReservedIp) (i : RipInfo)
    (h0 : strContainsSub m0 sQuotaNeedle = false)
    (h1 : strContainsSub m1 sQuotaNeedle = false)
    (h2 : strContainsSub m2 sQuotaNeedle = false)
    (hL : findIpForDroplet L did = some X) :
    replace_reserved_ip token did
        ⟨[ListAttempt.ok L], [DeleteAttempt.ok], fun _ => [ListAttempt.ok []],
         fun a => if a == 0 then [CreateAttempt.unprocessable m0]
                  else if a == 1 then [CreateAttempt.unprocessable m1]
                  else [CreateAttempt.ok i],
         fun _ => [ListAttempt.ok [⟨Y, some did⟩]]⟩ ⟨[], 0, []⟩ =
      ⟨ReplaceOutcome.completed X Y, 3, 3, 4,
        ⟨[(getCacheKey token sReservedIps, ([⟨Y, some did⟩], 85))], 85,
          [10, 10, 10, 10, 15, 30]⟩⟩ ∧
    replace_reserved_ip token did
        ⟨[ListAttempt.ok L], [DeleteAttempt.ok], fun _ => [ListAttempt.ok []],
         fun a => if a == 0 then [CreateAttempt.unprocessable m0]
                  else if a == 1 then [CreateAttempt.unprocessable m1]
                  else [CreateAttempt.unprocessable m2],
         fun _ => []⟩ ⟨[], 0, []⟩ =
      ⟨ReplaceOutcome.createFailedAfterRetries (some (kUnproc, m2)), 3, 3, 4,
        ⟨[(getCacheKey token sReservedIps, ([], 30))], 85, [10, 10, 10, 10, 15, 30]⟩⟩ := by
  constructor
  · rw [replace_reaches_create token X did L _ _ hL]
    have hphase : createPhase (fun a => if a == 0 then [CreateAttempt.unprocessable m0]
        else if a == 1 then [CreateAttempt.unprocessable m1] else [CreateAttempt.ok i])
        ⟨[(getCacheKey token sReservedIps, ([], 30))], 40, [10, 10, 10, 10]⟩ =
        (CreateLoopOut.done (CreateResult.info i) (some (kUnproc, m1)), 3, 3,
          ⟨[(getCacheKey token sReservedIps, ([], 30))], 85, [10, 10, 10, 10, 15, 30]⟩) := by
      simp [createPhase, createPhaseLoop, create_reserved_ip, h0, h1, sleep, kUnproc, kQuota]
    have hfindc : find_machine_reserved_ip token did [ListAttempt.ok [⟨Y, some did⟩]]
        ⟨[(getCacheKey token sReservedIps, ([], 30))], 85, [10, 10, 10, 10, 15, 30]⟩ =
        (some Y, 1, ⟨[(getCacheKey token sReservedIps, ([⟨Y, some did⟩], 85))], 85,
          [10, 10, 10, 10, 15, 30]⟩) := by
      have hlk : List.lookup (getCacheKey token sReservedIps)
          [(getCacheKey token sReservedIps, (([] : List ReservedIp), 30))] =
            some ([], 30) := by
        simp [List.lookup]
      have herase : cacheErase [(getCacheKey token sReservedIps, (([] : List ReservedIp), 30))]
          (getCacheKey token sReservedIps) = [] := by
        simp [cacheErase]
      have hmiss := get_eq_miss token [ListAttempt.ok [⟨Y, some did⟩]]
        ⟨[(getCacheKey token sReservedIps, ([], 30))], 85, [10, 10, 10, 10, 15, 30]⟩ []
        (by rw [show (⟨[(getCacheKey token sReservedIps, ([], 30))], 85,
              [10, 10, 10, 10, 15, 30]⟩ : S).cache =
            [(getCacheKey token sReservedIps, (([] : List ReservedIp), 30))] from rfl,
          getFromCache_eq_stale hlk (show ¬ (85 : Nat) - 30 < cacheTimeoutSec by decide),
          herase])
      unfold find_machine_reserved_ip
      rw [hmiss]
      simp [getReservedIpsLoop, setCache, cacheErase, findIpForDroplet]
    have hwc : wait_for_reserved_ip_creation token did
        (fun _ => [ListAttempt.ok [⟨Y, some did⟩]]) 120
        ⟨[(getCacheKey token sReservedIps, ([], 30))], 85, [10, 10, 10, 10, 15, 30]⟩ =
        (some Y, 1, ⟨[(getCacheKey token sReservedIps, ([⟨Y, some did⟩], 85))], 85,
          [10, 10, 10, 10, 15, 30]⟩) := by
      unfold wait_for_reserved_ip_creation
      rw [show (List.range (numPolls 120)).map
          (fun _ : Nat => [ListAttempt.ok [(⟨Y, some did⟩ : ReservedIp)]]) =
        [ListAttempt.ok [(⟨Y, some did⟩ : ReservedIp)]] ::
          (List.range 11).map (fun _ : Nat => [ListAttempt.ok [(⟨Y, some did⟩ : ReservedIp)]])
        from by
          rw [show numPolls 120 = 11 + 1 from rfl, List.range_succ_eq_map, List.map_cons,
            List.map_map]
          rfl]
      rw [waitCreateGo_cons, hfindc]
    unfold afterConfirm
    dsimp only
    rw [hphase]
    dsimp only
    rw [hwc]
  · rw [replace_reaches_create token X did L _ _ hL]
    have hphase : createPhase (fun a => if a == 0 then [CreateAttempt.unprocessable m0]
        else if a == 1 then [CreateAttempt.unprocessable m1]
        else [CreateAttempt.unprocessable m2])
        ⟨[(getCacheKey token sReservedIps, ([], 30))], 40, [10, 10, 10, 10]⟩ =
        (CreateLoopOut.done (CreateResult.err kUnproc m2) (some (kUnproc, m2)), 3, 3,
          ⟨[(getCacheKey token sReservedIps, ([], 30))], 85, [10, 10, 10, 10, 15, 30]⟩) := by
      simp [createPhase, createPhaseLoop, create_reserved_ip, h0, h1, h2, sleep, kUnproc,
        kQuota]
    unfold afterConfirm
    dsimp only
    rw [hphase]
    rfl

theorem claim_C5_witness :
    replace_reserved_ip tokTest 7
        ⟨[ListAttempt.ok [⟨ipX, some 7⟩]], [DeleteAttempt.ok], fun _ => [ListAttempt.ok []],
         fun a => if a == 0 then [CreateAttempt.unprocessable genericMsgTest]
                  else if a == 1 then [CreateAttempt.unprocessable genericMsgTest]
                  else [CreateAttempt.ok ⟨ipY⟩],
         fun _ => [ListAttempt.ok [⟨ipY, some 7⟩]]⟩ ⟨[], 0, []⟩ =
      ⟨ReplaceOutcome.completed ipX ipY, 3, 3, 4,
        ⟨[(getCacheKey tokTest sReservedIps, ([⟨ipY, some 7⟩], 85))], 85,
          [10, 10, 10, 10, 15, 30]⟩⟩ ∧
    replace_reserved_ip tokTest 7
        ⟨[ListAttempt.ok [⟨ipX, some 7⟩]], [DeleteAttempt.ok], fun _ => [ListAttempt.ok []],
         fun a => if a == 0 then [CreateAttempt.unprocessable genericMsgTest]
                  else if a == 1 then [CreateAttempt.unprocessable genericMsgTest]
                  else [CreateAttempt.unprocessable genericMsgTest],
         fun _ => []⟩ ⟨[], 0, []⟩ =
      ⟨ReplaceOutcome.createFailedAfterRetries (some (kUnproc, genericMsgTest)), 3, 3, 4,
        ⟨[(getCacheKey tokTest sReservedIps, ([], 30))], 85, [10, 10, 10, 10, 15, 30]⟩⟩ :=
  claim_C5 tokTest ipX ipY genericMsgTest genericMsgTest genericMsgTest 7 [⟨ipX, some 7⟩]
    ⟨ipY⟩ (by decide) (by decide) (by decide) (by decide)

end DoApi
